import Mathlib

/-!
Shallow embedding of `modules/auctionSignalAnalyticsAdapter.js` (Prebid.js
auction-signal analytics adapter) and proofs of the specification claims.

JS numbers are modelled as exact rationals (`ℚ`); JS `Math.round(x*100)/100`
becomes `round2`.  JS objects used as payloads are association lists from
field name to a `Value`; JS `delete obj[k]` on a (copied) object is key
erasure, and JS property assignment `obj[k] = v` is `setField`.  The
auction cache (a plain JS object keyed by auction id) is a function
`String → Option AuctionData`.  Fallible / absent JS values are `Option`s.
-/

namespace AuctionSignal

/-- CPM statistics record, mirroring the object returned by
`calculateCpmStats` (fields `avg`, `max`, `min`, `median`). -/
structure CpmStats where
  avg : ℚ
  max : ℚ
  min : ℚ
  median : ℚ
deriving DecidableEq, Repr

/-- Content-context object produced by `buildContextObject`:
optional `language`, optional `keywords`, and a `source` tag. -/
structure Context where
  language : Option String
  keywords : Option (List String)
  source : String
deriving DecidableEq, Repr

/-- The `site.content` descriptor found in ORTB2 data: an object with
optional `language` and `keywords` properties.  `some []` models a present
but empty keywords array (truthy in JS), `none` models an absent field. -/
structure SiteContent where
  language : Option String
  keywords : Option (List String)
deriving DecidableEq, Repr

/-- A per-bidder request object attached to the auction-end event.
`content` collapses the optional chain `bidderRequest.ortb2?.site?.content`:
`none` when any level of the chain is missing. -/
structure BidderRequest where
  bidderCode : String
  content : Option SiteContent
deriving DecidableEq, Repr

/-- JSON-like values stored in payload fields. -/
inductive Value where
  | null : Value
  | str : String → Value
  | num : ℚ → Value
  | strList : List String → Value
  | stats : CpmStats → Value
  | context : Context → Value
deriving DecidableEq, Repr

/-- A payload object: an association list from field name to value,
in insertion order (first binding wins on lookup, as for JS objects
whose keys are unique). -/
abbrev Payload := List (String × Value)

/-- JS `Math.round`: round half towards positive infinity, `⌊x + 1/2⌋`. -/
def jsRound (x : ℚ) : ℤ := ⌊x + 1/2⌋

/-- JS `Math.round(x * 100) / 100`: round to two decimal places. -/
def round2 (x : ℚ) : ℚ := (jsRound (x * 100) : ℚ) / 100

/-- `ADAPTER_VERSION` constant from the source. -/
def ADAPTER_VERSION : String := "1.1.0"

/-- `DATA_MODES` constant from the source. -/
def DATA_MODES : List String := ["raw", "index", "both"]

/-- `PAYLOAD_FIELDS` constant from the source: the known payload field
vocabulary used to validate exclusion entries. -/
def PAYLOAD_FIELDS : List String :=
  ["domain", "pageUrl", "publisherId", "timestamp", "auctionId",
   "adapterVersion", "pbjsVersion", "adUnits", "bidderRequests",
   "bidResponses", "noBids", "uniqueBidders", "bidderList", "cpmStats",
   "fillRate", "auctionDuration"]

/-- `calculateCpmStats(cpms)` from the source: empty input yields all
zeros; otherwise sort ascending (`[...cpms].sort((a,b)=>a-b)`), `avg` is
`reduce((a,b)=>a+b,0) / length`, `min`/`max` are `sorted[0]` and
`sorted[length-1]`, the median is `sorted[mid]` for odd length and
`(sorted[mid-1]+sorted[mid])/2` for even length with `mid = ⌊length/2⌋`,
and each of the four is rounded to two decimals. -/
def calculateCpmStats (cpms : List ℚ) : CpmStats :=
  if cpms.length = 0 then ⟨0, 0, 0, 0⟩
  else
    let sorted := List.insertionSort (fun a b => a ≤ b) cpms
    let sum := cpms.foldl (fun a b => a + b) (0 : ℚ)
    let avg := sum / cpms.length
    let mn := sorted.headD 0
    let mx := sorted.getD (sorted.length - 1) 0
    let mid := sorted.length / 2
    let median :=
      if sorted.length % 2 ≠ 0 then sorted.getD mid 0
      else (sorted.getD (mid - 1) 0 + sorted.getD mid 0) / 2
    ⟨round2 avg, round2 mx, round2 mn, round2 median⟩

/-- `calculateAuctionSignal(fillRate, avgCpm, uniqueBidders)` from the
source: weighted sum of `min(fillRate,1)`, `min(avgCpm/10,1)` and
`min(uniqueBidders/10,1)` with weights 0.4 / 0.4 / 0.2, rounded to two
decimals. -/
def calculateAuctionSignal (fillRate avgCpm uniqueBidders : ℚ) : ℚ :=
  let fillRateScore := min fillRate 1
  let normalizedCpm := min (avgCpm / 10) 1
  let bidderDiversityScore := min (uniqueBidders / 10) 1
  round2 (fillRateScore * (2/5) + normalizedCpm * (2/5) +
    bidderDiversityScore * (1/5))

/-- JS truthiness of the optional string `siteContent.language`:
present and non-empty. -/
def langTruthy : Option String → Bool
  | some s => s ≠ ""
  | none => false

/-- JS truthiness of the optional array `siteContent.keywords`:
any present array is truthy, including the empty one. -/
def kwTruthy : Option (List String) → Bool
  | some _ => true
  | none => false

/-- `buildContextObject(siteContent)` from the source: null when neither
`language` nor `keywords` is truthy; otherwise build a context holding
`language` when truthy and `keywords` when a non-empty array, tag it with
`source = "ortb2"` when non-empty, else null. -/
def buildContextObject (sc : SiteContent) : Option Context :=
  if ¬ langTruthy sc.language ∧ ¬ kwTruthy sc.keywords then none
  else
    let lang := if langTruthy sc.language then sc.language else none
    let kws :=
      match sc.keywords with
      | some l => if l.length > 0 then some l else none
      | none => none
    if lang.isSome ∨ kws.isSome then some ⟨lang, kws, "ortb2"⟩
    else none

/-- The `for` loop over `auctionArgs.bidderRequests` in
`getContentContext`: the first bidder request whose
`ortb2?.site?.content` is present ends the search (the source `return`s
from inside the loop on that request). -/
def firstBidderContent : List BidderRequest → Option SiteContent
  | [] => none
  | br :: rest =>
    match br.content with
    | some c => some c
    | none => firstBidderContent rest

/-- The auction-end event arguments consumed by `onAuctionEnd` /
`getContentContext`.  `topContent` collapses the optional chain
`auctionArgs.ortb2?.site?.content`. -/
structure AuctionEndArgs where
  auctionId : String
  auctionEnd : Option ℤ
  bidderRequests : List BidderRequest
  topContent : Option SiteContent
deriving DecidableEq, Repr

/-- `getContentContext(auctionArgs)` from the source, with the globally
persisted descriptor `pbjs.getConfig('ortb2')?.site?.content` (which
lives outside this module) passed in as the parameter `globalContent`:
scan the per-bidder requests in order and return
`buildContextObject(content)` for the first one whose content is present;
otherwise do the same for the event's top-level descriptor, then for the
global one; null when no source has a content descriptor. -/
def getContentContext (args : AuctionEndArgs)
    (globalContent : Option SiteContent) : Option Context :=
  match firstBidderContent args.bidderRequests with
  | some c => buildContextObject c
  | none =>
    match args.topContent with
    | some c => buildContextObject c
    | none =>
      match globalContent with
      | some c => buildContextObject c
      | none => none

/-- A validated vendor configuration (after `enableAnalytics`):
`dataMode` has been defaulted, `excludeFields` is kept as configured
(`none` when the option was absent). -/
structure Vendor where
  name : String
  endpoint : String
  dataMode : String
  excludeFields : Option (List String)
deriving DecidableEq, Repr

/-- A raw vendor entry as supplied in `options.vendors` before
validation; every property may be absent. -/
structure VendorIn where
  name : Option String
  endpoint : Option String
  dataMode : Option String
  excludeFields : Option (List String)
deriving DecidableEq, Repr

/-- The `options` object passed to `enableAnalytics`. -/
structure Options where
  vendors : Option (List VendorIn)
  publisherId : Option String
  excludeFields : Option (List String)
deriving DecidableEq, Repr

/-- The module-level `config` populated by `enableAnalytics`. -/
structure Config where
  vendors : List Vendor
  publisherId : Option String
  excludeFields : List String
deriving DecidableEq, Repr

/-- The per-vendor validation step inside `enableAnalytics`
(`options.vendors.filter(...)`): drop a vendor whose `name` or
`endpoint` is not a truthy string; default an absent or invalid
`dataMode` to `"raw"`; keep `excludeFields` as given (a non-array value
would be replaced by `[]`, which the typed model cannot represent). -/
def validateVendor (v : VendorIn) : Option Vendor :=
  match v.name with
  | none => none
  | some n =>
    if n = "" then none
    else
      match v.endpoint with
      | none => none
      | some e =>
        if e = "" then none
        else
          let dm :=
            match v.dataMode with
            | some d => if d ∈ DATA_MODES then d else "raw"
            | none => "raw"
          some ⟨n, e, dm, v.excludeFields⟩

/-- `enableAnalytics` from the source, modelling the configuration
outcome: `none` when configuration is rejected (no vendors option, empty
vendor list, or no vendor surviving validation), otherwise the populated
`config` with the global `excludeFields` filtered against
`PAYLOAD_FIELDS` (unknown entries dropped) and `publisherId` defaulted
to null when falsy. -/
def enableAnalytics (opts : Options) : Option Config :=
  match opts.vendors with
  | none => none
  | some vs =>
    if vs.length = 0 then none
    else
      let validVendors := vs.filterMap validateVendor
      if validVendors.length = 0 then none
      else
        let pubId :=
          match opts.publisherId with
          | some s => if s = "" then none else some s
          | none => none
        let globalEx :=
          match opts.excludeFields with
          | some l => l.filter (fun f => f ∈ PAYLOAD_FIELDS)
          | none => []
        some ⟨validVendors, pubId, globalEx⟩

/-- JS `delete obj[field]` on an association-list object: remove the
binding for `field`. -/
def eraseField (p : Payload) (field : String) : Payload :=
  p.filter (fun kv => kv.1 ≠ field)

/-- JS property assignment `obj[k] = v` (and the object-literal override
`{...obj, k: v}`), observationally: the binding for `k` becomes `v`,
every other binding is unchanged. -/
def setField (p : Payload) (k : String) (v : Value) : Payload :=
  eraseField p k ++ [(k, v)]

/-- `filterPayload(payload, excludeFields)` from the source: return the
payload unchanged for an empty exclusion list, otherwise copy it and
delete each excluded field from the copy. -/
def filterPayload (payload : Payload) (excludeFields : List String) :
    Payload :=
  if excludeFields.length = 0 then payload
  else excludeFields.foldl (fun acc field => eraseField acc field) payload

/-- `getExcludeFieldsForVendor(vendor)` from the source, with the global
`config.excludeFields` passed in: the vendor's own list when present and
non-empty, else the global list. -/
def getExcludeFieldsForVendor (globalExclude : List String)
    (vendor : Vendor) : List String :=
  match vendor.excludeFields with
  | some l => if l.length > 0 then l else globalExclude
  | none => globalExclude

/-- `sendTelemetryToVendors(fullPayload, indexPayload, auctionSignal)`
from the source, returning the sequence of `(vendor name, payload)`
POSTs issued by the `forEach` loop: `index` mode sends the index payload
verbatim; `both` sends the filtered full payload with `auctionSignal`
set on top; `raw` (and any other mode, the switch default) sends the
filtered full payload. -/
def sendTelemetryToVendors (vendors : List Vendor)
    (globalExclude : List String) (fullPayload indexPayload : Payload)
    (auctionSignal : ℚ) : List (String × Payload) :=
  vendors.foldl
    (fun acc vendor =>
      let payloadToSend :=
        if vendor.dataMode = "index" then indexPayload
        else if vendor.dataMode = "both" then
          let excludeFields := getExcludeFieldsForVendor globalExclude vendor
          let filteredFull := filterPayload fullPayload excludeFields
          setField filteredFull "auctionSignal" (Value.num auctionSignal)
        else
          let excludeFieldsRaw := getExcludeFieldsForVendor globalExclude vendor
          filterPayload fullPayload excludeFieldsRaw
      acc ++ [(vendor.name, payloadToSend)])
    []

/-- The payload a single vendor receives (the body of the `switch` in
`sendTelemetryToVendors`), factored out for reasoning about the fan-out
loop. -/
def vendorPayload (globalExclude : List String)
    (fullPayload indexPayload : Payload) (auctionSignal : ℚ)
    (vendor : Vendor) : Payload :=
  if vendor.dataMode = "index" then indexPayload
  else if vendor.dataMode = "both" then
    setField (filterPayload fullPayload
      (getExcludeFieldsForVendor globalExclude vendor))
      "auctionSignal" (Value.num auctionSignal)
  else
    filterPayload fullPayload (getExcludeFieldsForVendor globalExclude vendor)

/-- One entry of the `auctionCache` store: the per-auction record built
by `onAuctionInit` and mutated by the later event handlers. -/
structure AuctionData where
  auctionId : String
  auctionStart : ℤ
  adUnits : ℕ
  bidderRequests : ℕ
  bidResponses : ℕ
  noBids : ℕ
  cpms : List ℚ
  bidders : List String
deriving DecidableEq, Repr

/-- The `auctionCache` object: a dictionary from auction id to record. -/
abbrev Cache := String → Option AuctionData

/-- Arguments of the AUCTION_INIT event: auction id, the ad-unit list
(only its length is stored) and an optional start timestamp. -/
structure AuctionInitArgs where
  auctionId : String
  adUnits : List String
  timestamp : Option ℤ
deriving DecidableEq, Repr

/-- Arguments of the BID_REQUESTED event: auction id, bidder code and
the list of individual bid requests (only its length is counted; the
entries are modelled by their bid ids). -/
structure BidRequestedArgs where
  auctionId : String
  bidderCode : String
  bids : List String
deriving DecidableEq, Repr

/-- Arguments of the BID_RESPONSE event: auction id and the `cpm`
property, `none` when absent or not a number. -/
structure BidResponseArgs where
  auctionId : String
  cpm : Option ℚ
deriving DecidableEq, Repr

/-- Arguments of the NO_BID event. -/
structure NoBidArgs where
  auctionId : String
deriving DecidableEq, Repr

/-- `onAuctionInit(args)` from the source: store a fresh record under
the auction id (replacing any existing one), with `auctionStart` taken
from the event timestamp or `Date.now()` (the parameter `now`). -/
def onAuctionInit (now : ℤ) (cache : Cache) (args : AuctionInitArgs) :
    Cache :=
  fun k =>
    if k = args.auctionId then
      some ⟨args.auctionId, args.timestamp.getD now, args.adUnits.length,
        0, 0, 0, [], []⟩
    else cache k

/-- The `Set.add` on `auction.bidders`: append the bidder code unless
already present. -/
def addBidder (bidders : List String) (bidderCode : String) :
    List String :=
  if bidderCode ∈ bidders then bidders else bidders ++ [bidderCode]

/-- `onBidRequested(args)` from the source: no-op when the auction id is
unknown; otherwise add `bids.length` to `bidderRequests` and the bidder
code to the `bidders` set. -/
def onBidRequested (cache : Cache) (args : BidRequestedArgs) : Cache :=
  match cache args.auctionId with
  | none => cache
  | some auction =>
    fun k =>
      if k = args.auctionId then
        some { auction with
          bidderRequests := auction.bidderRequests + args.bids.length,
          bidders := addBidder auction.bidders args.bidderCode }
      else cache k

/-- `onBidResponse(args)` from the source: no-op when the auction id is
unknown; otherwise increment `bidResponses` and append `cpm` to `cpms`
when it is a number strictly greater than zero. -/
def onBidResponse (cache : Cache) (args : BidResponseArgs) : Cache :=
  match cache args.auctionId with
  | none => cache
  | some auction =>
    fun k =>
      if k = args.auctionId then
        some { auction with
          bidResponses := auction.bidResponses + 1,
          cpms :=
            match args.cpm with
            | some c => if 0 < c then auction.cpms ++ [c] else auction.cpms
            | none => auction.cpms }
      else cache k

/-- `onNoBid(args)` from the source: silent no-op when the auction id is
unknown; otherwise increment `noBids`. -/
def onNoBid (cache : Cache) (args : NoBidArgs) : Cache :=
  match cache args.auctionId with
  | none => cache
  | some auction =>
    fun k =>
      if k = args.auctionId then
        some { auction with noBids := auction.noBids + 1 }
      else cache k

/-- The environment values `onAuctionEnd` reads from the host page:
`window.location` parts, the serialized current time, the user agent,
the substituted Prebid version, and `Date.now()`. -/
structure Env where
  hostname : String
  pathname : String
  timestampStr : String
  userAgent : String
  pbjsVersion : String
  now : ℤ
deriving DecidableEq, Repr

/-- The outcome of a completed `onAuctionEnd`: the two payload variants,
the computed signal score, and the list of per-vendor sends. -/
structure AuctionEndResult where
  fullPayload : Payload
  indexPayload : Payload
  auctionSignal : ℚ
  sends : List (String × Payload)
deriving DecidableEq, Repr

/-- `onAuctionEnd(args)` from the source: no-op returning no result when
the auction id is unknown; otherwise compute the duration, CPM stats,
unrounded fill rate, signal score and content context, build the full
and index payloads (appending `contentContext` to both when resolved),
fan the payloads out to the configured vendors, and delete the record
from the cache. -/
def onAuctionEnd (cfg : Config) (env : Env)
    (globalContent : Option SiteContent) (cache : Cache)
    (args : AuctionEndArgs) : Option AuctionEndResult × Cache :=
  match cache args.auctionId with
  | none => (none, cache)
  | some auction =>
    let auctionDuration : ℤ := args.auctionEnd.getD env.now - auction.auctionStart
    let cpmStats := calculateCpmStats auction.cpms
    let totalRequests := auction.bidderRequests
    let fillRate : ℚ :=
      if 0 < totalRequests then (auction.bidResponses : ℚ) / totalRequests
      else 0
    let auctionSignal :=
      calculateAuctionSignal fillRate cpmStats.avg auction.bidders.length
    let contentContext := getContentContext args globalContent
    let fullPayload0 : Payload :=
      [("domain", Value.str env.hostname),
       ("pageUrl", Value.str env.pathname),
       ("publisherId",
         match cfg.publisherId with
         | some p => Value.str p
         | none => Value.null),
       ("timestamp", Value.str env.timestampStr),
       ("auctionId", Value.str args.auctionId),
       ("adapterVersion", Value.str ADAPTER_VERSION),
       ("pbjsVersion", Value.str env.pbjsVersion),
       ("userAgent", Value.str env.userAgent),
       ("adUnits", Value.num auction.adUnits),
       ("bidderRequests", Value.num auction.bidderRequests),
       ("bidResponses", Value.num auction.bidResponses),
       ("noBids", Value.num auction.noBids),
       ("uniqueBidders", Value.num auction.bidders.length),
       ("bidderList", Value.strList auction.bidders),
       ("cpmStats", Value.stats cpmStats),
       ("fillRate", Value.num (round2 fillRate)),
       ("auctionDuration", Value.num auctionDuration)]
    let indexPayload0 : Payload :=
      [("domain", Value.str env.hostname),
       ("timestamp", Value.str env.timestampStr),
       ("userAgent", Value.str env.userAgent),
       ("auctionSignal", Value.num auctionSignal),
       ("adUnits", Value.num auction.adUnits),
       ("uniqueBidders", Value.num auction.bidders.length),
       ("fillRate", Value.num (round2 fillRate))]
    let fullPayload :=
      match contentContext with
      | some c => setField fullPayload0 "contentContext" (Value.context c)
      | none => fullPayload0
    let indexPayload :=
      match contentContext with
      | some c => setField indexPayload0 "contentContext" (Value.context c)
      | none => indexPayload0
    let sends :=
      sendTelemetryToVendors cfg.vendors cfg.excludeFields fullPayload
        indexPayload auctionSignal
    (some ⟨fullPayload, indexPayload, auctionSignal, sends⟩,
      fun k => if k = args.auctionId then none else cache k)

/-! ### Helper lemmas -/

/-- `jsRound`/`round2` evaluation: `round2 x = z / 100` when
`z ≤ x·100 + 1/2 < z + 1`. -/
lemma round2_eq (x : ℚ) (z : ℤ) (h1 : (z : ℚ) ≤ x * 100 + 1/2)
    (h2 : x * 100 + 1/2 < (z : ℚ) + 1) : round2 x = (z : ℚ) / 100 := by
  unfold round2 jsRound
  rw [show ⌊x * 100 + 1/2⌋ = z from
    Int.floor_eq_iff.mpr ⟨by exact_mod_cast h1, by exact_mod_cast h2⟩]

lemma round2_nonneg {x : ℚ} (h : 0 ≤ x) : 0 ≤ round2 x := by
  unfold round2 jsRound
  have : (0 : ℤ) ≤ ⌊x * 100 + 1/2⌋ := by
    apply Int.le_floor.mpr
    push_cast
    linarith
  positivity

lemma round2_le_one {x : ℚ} (h : x ≤ 1) : round2 x ≤ 1 := by
  unfold round2 jsRound
  have hf : ⌊x * 100 + 1/2⌋ ≤ (100 : ℤ) := by
    have : ⌊x * 100 + 1/2⌋ ≤ ⌊(201 : ℚ)/2⌋ := Int.floor_mono (by linarith)
    have h2 : ⌊(201 : ℚ)/2⌋ = 100 := by
      rw [Int.floor_eq_iff]; norm_num
    omega
  rw [div_le_one (by norm_num)]
  exact_mod_cast hf

lemma foldl_add_eq_sum (l : List ℚ) (a : ℚ) :
    l.foldl (fun x y => x + y) a = a + l.sum := by
  induction l generalizing a with
  | nil => simp
  | cons h t ih => simp [ih]; ring

lemma eraseField_cons_self (a : String) (b : Value) (rest : Payload) :
    eraseField ((a, b) :: rest) a = eraseField rest a := by
  simp [eraseField]

lemma eraseField_cons_ne (a f : String) (b : Value) (rest : Payload)
    (h : a ≠ f) : eraseField ((a, b) :: rest) f = (a, b) :: eraseField rest f := by
  simp [eraseField, h]

lemma lookup_eraseField (p : Payload) (f k : String) :
    (eraseField p f).lookup k = if k = f then none else p.lookup k := by
  induction p with
  | nil => simp [eraseField]
  | cons kv rest ih =>
    obtain ⟨a, b⟩ := kv
    by_cases haf : a = f
    · subst haf
      rw [eraseField_cons_self, ih]
      by_cases hka : k = a
      · simp [hka]
      · simp [hka, List.lookup, show (k == a) = false by simpa using hka]
    · rw [eraseField_cons_ne a f b rest haf]
      by_cases hka : k = a
      · subst hka
        simp [List.lookup, show k ≠ f from fun h => haf h]
      · simp [List.lookup, show (k == a) = false by simpa using hka, ih]

lemma lookup_foldl_erase (ex : List String) (p : Payload) (k : String) :
    (ex.foldl (fun acc field => eraseField acc field) p).lookup k =
      if k ∈ ex then none else p.lookup k := by
  induction ex generalizing p with
  | nil => simp
  | cons f rest ih =>
    rw [List.foldl_cons, ih, lookup_eraseField]
    by_cases hf : k = f
    · simp [hf]
    · simp [hf, List.mem_cons]

/-- The observable effect of `filterPayload`: the filtered copy lacks
exactly the excluded keys and agrees with the original elsewhere. -/
lemma lookup_filterPayload (p : Payload) (ex : List String) (k : String) :
    (filterPayload p ex).lookup k = if k ∈ ex then none else p.lookup k := by
  unfold filterPayload
  by_cases hex : ex.length = 0
  · have : ex = [] := List.length_eq_zero.mp hex
    simp [this]
  · simp only [hex, if_false]
    exact lookup_foldl_erase ex p k

lemma lookup_append_payload (l1 l2 : Payload) (k : String) :
    (l1 ++ l2).lookup k =
      match l1.lookup k with
      | some v => some v
      | none => l2.lookup k := by
  induction l1 with
  | nil => simp
  | cons kv rest ih =>
    obtain ⟨a, b⟩ := kv
    by_cases hka : k = a
    · simp [List.lookup, hka]
    · simp [List.lookup, show (k == a) = false by simpa using hka, ih]

lemma lookup_setField_self (p : Payload) (k : String) (v : Value) :
    (setField p k v).lookup k = some v := by
  unfold setField
  rw [lookup_append_payload, lookup_eraseField]
  simp [List.lookup]

lemma lookup_setField_ne (p : Payload) (k k' : String) (v : Value)
    (h : k' ≠ k) : (setField p k v).lookup k' = p.lookup k' := by
  unfold setField
  rw [lookup_append_payload, lookup_eraseField]
  simp only [h, if_false]
  cases hl : p.lookup k' with
  | none => simp [List.lookup, show (k' == k) = false by simpa using h]
  | some v0 => simp

/-- The `forEach` fan-out loop in `sendTelemetryToVendors` sends each
vendor exactly the payload `vendorPayload` computes for it from the one
shared pair of payload objects. -/
lemma sendTelemetryToVendors_eq_map (vendors : List Vendor)
    (globalExclude : List String) (fullPayload indexPayload : Payload)
    (auctionSignal : ℚ) :
    sendTelemetryToVendors vendors globalExclude fullPayload indexPayload
        auctionSignal =
      vendors.map (fun v =>
        (v.name, vendorPayload globalExclude fullPayload indexPayload
          auctionSignal v)) := by
  unfold sendTelemetryToVendors
  suffices h : ∀ acc : List (String × Payload),
      vendors.foldl
        (fun acc vendor =>
          let payloadToSend :=
            if vendor.dataMode = "index" then indexPayload
            else if vendor.dataMode = "both" then
              let excludeFields := getExcludeFieldsForVendor globalExclude vendor
              let filteredFull := filterPayload fullPayload excludeFields
              setField filteredFull "auctionSignal" (Value.num auctionSignal)
            else
              let excludeFieldsRaw := getExcludeFieldsForVendor globalExclude vendor
              filterPayload fullPayload excludeFieldsRaw
          acc ++ [(vendor.name, payloadToSend)]) acc =
      acc ++ vendors.map (fun v =>
        (v.name, vendorPayload globalExclude fullPayload indexPayload
          auctionSignal v)) by
    simpa using h []
  induction vendors with
  | nil => intro acc; simp
  | cons v rest ih =>
    intro acc
    rw [List.foldl_cons, ih, List.map_cons]
    simp [vendorPayload, List.append_assoc]

lemma sorted_headD_le {l : List ℚ}
    (hs : l.Sorted (fun a b => a ≤ b)) : ∀ x ∈ l, l.headD 0 ≤ x := by
  cases l with
  | nil => intro x hx; cases hx
  | cons a t =>
    intro x hx
    rcases List.mem_cons.mp hx with h | h
    · simp [h]
    · simpa using List.rel_of_sorted_cons hs x h

lemma getD_last_mem (l : List ℚ) (h : l ≠ []) :
    l.getD (l.length - 1) 0 ∈ l := by
  have hlt : l.length - 1 < l.length := by
    cases l with
    | nil => simp at h
    | cons a t => simp
  rw [List.getD_eq_getElem l 0 hlt]
  exact List.getElem_mem hlt

lemma sorted_le_getD_last {l : List ℚ}
    (hs : l.Sorted (fun a b => a ≤ b)) :
    ∀ x ∈ l, x ≤ l.getD (l.length - 1) 0 := by
  induction l with
  | nil => intro x hx; cases hx
  | cons a t ih =>
    intro x hx
    cases t with
    | nil =>
      rcases List.mem_cons.mp hx with h | h
      · simp [h]
      · cases h
    | cons b t2 =>
      have hstep : (a :: b :: t2).getD ((a :: b :: t2).length - 1) 0 =
          (b :: t2).getD ((b :: t2).length - 1) 0 := by
        simp [List.getD]
      rw [hstep]
      rcases List.mem_cons.mp hx with h | h
      · subst h
        have hmem := getD_last_mem (b :: t2) (by simp)
        exact le_trans
          (by simpa using List.rel_of_sorted_cons hs _ hmem)
          (le_refl _)
      · exact ih hs.of_cons x h

lemma headD_mem (l : List ℚ) (h : l ≠ []) : l.headD 0 ∈ l := by
  cases l with
  | nil => simp at h
  | cons a t => simp

/-! ### Claim theorems -/

/-- C7: `calculateCpmStats` on the empty sequence returns all zeros; on
every non-empty sequence it returns the rounded arithmetic mean as
`avg`, the rounded least and greatest elements (the first and last of
the ascending sort) as `min` and `max`, and as `median` the rounded
middle element of the sort for odd length, or the mean of the two
central elements for even length; `calculateCpmStats [1,2,3] =
{avg:2, max:3, min:1, median:2}` and `calculateCpmStats [1,2,3,4]` has
median `2.50`. -/
theorem claim_C7_calculateCpmStats :
    calculateCpmStats [] = ⟨0, 0, 0, 0⟩ ∧
    calculateCpmStats [1, 2, 3] = ⟨2, 3, 1, 2⟩ ∧
    (calculateCpmStats [1, 2, 3, 4]).median = 5 / 2 ∧
    ∀ l : List ℚ, l ≠ [] →
      (calculateCpmStats l).avg = round2 (l.sum / l.length) ∧
      (∃ m ∈ l, (∀ x ∈ l, m ≤ x) ∧ (calculateCpmStats l).min = round2 m) ∧
      (∃ m ∈ l, (∀ x ∈ l, x ≤ m) ∧ (calculateCpmStats l).max = round2 m) ∧
      (calculateCpmStats l).median =
        round2 (if l.length % 2 = 1 then
            (List.insertionSort (fun a b => a ≤ b) l).getD (l.length / 2) 0
          else
            ((List.insertionSort (fun a b => a ≤ b) l).getD
                (l.length / 2 - 1) 0 +
              (List.insertionSort (fun a b => a ≤ b) l).getD
                (l.length / 2) 0) / 2) := by
  refine ⟨rfl, ?_, ?_, ?_⟩
  · have h1 : round2 1 = 1 := by
      rw [round2_eq 1 100 (by norm_num) (by norm_num)]; norm_num
    have h2 : round2 2 = 2 := by
      rw [round2_eq 2 200 (by norm_num) (by norm_num)]; norm_num
    have h3 : round2 3 = 3 := by
      rw [round2_eq 3 300 (by norm_num) (by norm_num)]; norm_num
    norm_num [calculateCpmStats, List.insertionSort, List.orderedInsert,
      List.getD, h1, h2, h3]
  · have h : round2 (5/2) = 5/2 := by
      rw [round2_eq (5/2) 250 (by norm_num) (by norm_num)]; norm_num
    norm_num [calculateCpmStats, List.insertionSort, List.orderedInsert,
      List.getD, h]
  · intro l hl
    have hlen0 : ¬ l.length = 0 := by simpa using hl
    have hperm : List.Perm (List.insertionSort (fun a b => a ≤ b) l) l :=
      List.perm_insertionSort _ l
    have hsorted :
        (List.insertionSort (fun a b => a ≤ b) l).Sorted
          (fun a b => a ≤ b) :=
      List.sorted_insertionSort _ l
    have hlen : (List.insertionSort (fun a b => a ≤ b) l).length =
        l.length := hperm.length_eq
    have hsne : List.insertionSort (fun a b => a ≤ b) l ≠ [] := by
      intro h
      exact hl (List.Perm.eq_nil (h ▸ hperm.symm))
    simp only [calculateCpmStats, hlen0, if_false]
    refine ⟨?_, ?_, ?_, ?_⟩
    · rw [foldl_add_eq_sum, zero_add]
    · exact ⟨(List.insertionSort (fun a b => a ≤ b) l).headD 0,
        hperm.subset (headD_mem _ hsne), fun x hx => sorted_headD_le hsorted x
          (hperm.mem_iff.mpr hx), rfl⟩
    · refine ⟨(List.insertionSort (fun a b => a ≤ b) l).getD
          ((List.insertionSort (fun a b => a ≤ b) l).length - 1) 0,
        hperm.subset (getD_last_mem _ hsne),
        fun x hx => sorted_le_getD_last hsorted x (hperm.mem_iff.mpr hx),
        by rw [hlen]⟩
    · rw [hlen]
      have hiff : (l.length % 2 ≠ 0) ↔ (l.length % 2 = 1) := by omega
      simp only [hiff]

/-- Witness for C7: instantiating the non-empty clause at `[5, 3]`. -/
theorem claim_C7_witness :
    ([(5 : ℚ), 3] : List ℚ) ≠ [] ∧
    (calculateCpmStats [5, 3]).avg =
      round2 (([(5 : ℚ), 3]).sum / (([(5 : ℚ), 3] : List ℚ).length : ℚ)) :=
  ⟨by simp, (claim_C7_calculateCpmStats.2.2.2 [5, 3] (by simp)).1⟩

/-- C8: for non-negative inputs, `calculateAuctionSignal` returns the
two-decimal rounding of
`min(fillRate,1)·0.4 + min(avgCpm/10,1)·0.4 + min(uniqueBidders/10,1)·0.2`,
the result always lies in `[0, 1]`, and
`calculateAuctionSignal 0 0 0 = 0`, `calculateAuctionSignal 1 10 10 = 1`. -/
theorem claim_C8_calculateAuctionSignal :
    (∀ fillRate avgCpm uniqueBidderCount : ℚ,
      0 ≤ fillRate → 0 ≤ avgCpm → 0 ≤ uniqueBidderCount →
      calculateAuctionSignal fillRate avgCpm uniqueBidderCount =
        round2 (min fillRate 1 * (2/5) + min (avgCpm / 10) 1 * (2/5) +
          min (uniqueBidderCount / 10) 1 * (1/5)) ∧
      0 ≤ calculateAuctionSignal fillRate avgCpm uniqueBidderCount ∧
      calculateAuctionSignal fillRate avgCpm uniqueBidderCount ≤ 1) ∧
    calculateAuctionSignal 0 0 0 = 0 ∧
    calculateAuctionSignal 1 10 10 = 1 := by
  refine ⟨?_, ?_, ?_⟩
  · intro f a u hf ha hu
    refine ⟨rfl, ?_, ?_⟩
    · apply round2_nonneg
      have h1 : 0 ≤ min f 1 := le_min hf (by norm_num)
      have h2 : 0 ≤ min (a / 10) 1 := le_min (by positivity) (by norm_num)
      have h3 : 0 ≤ min (u / 10) 1 := le_min (by positivity) (by norm_num)
      nlinarith
    · apply round2_le_one
      have h1 : min f 1 ≤ 1 := min_le_right _ _
      have h2 : min (a / 10) 1 ≤ 1 := min_le_right _ _
      have h3 : min (u / 10) 1 ≤ 1 := min_le_right _ _
      nlinarith
  · have h : round2 0 = 0 := by
      rw [round2_eq 0 0 (by norm_num) (by norm_num)]; norm_num
    norm_num [calculateAuctionSignal, min_def, h]
  · have h : round2 1 = 1 := by
      rw [round2_eq 1 100 (by norm_num) (by norm_num)]; norm_num
    norm_num [calculateAuctionSignal, min_def, h]

/-- Witness for C8: instantiating the bounded-range clause at
`(0, 0, 0)`. -/
theorem claim_C8_witness :
    (0 : ℚ) ≤ 0 ∧
    (0 ≤ calculateAuctionSignal 0 0 0 ∧ calculateAuctionSignal 0 0 0 ≤ 1) :=
  ⟨le_refl 0,
    (claim_C8_calculateAuctionSignal.1 0 0 0 (le_refl 0) (le_refl 0)
      (le_refl 0)).2⟩

/-- C3: a vendor's effective exclusion set is its own `excludeFields`
when present and non-empty, otherwise the global list — never a union;
with global `["cpmStats"]` and a vendor override `["pageUrl"]`, that
vendor's raw payload keeps `cpmStats` (and every other field) and omits
only `pageUrl`. -/
theorem claim_C3_excludeFieldsOverride :
    (∀ (globalExclude : List String) (v : Vendor) (l : List String),
      v.excludeFields = some l → l ≠ [] →
      getExcludeFieldsForVendor globalExclude v = l) ∧
    (∀ (globalExclude : List String) (v : Vendor),
      v.excludeFields = none ∨ v.excludeFields = some [] →
      getExcludeFieldsForVendor globalExclude v = globalExclude) ∧
    (∀ (fullPayload indexPayload : Payload) (sig : ℚ) (v : Vendor),
      v.dataMode = "raw" → v.excludeFields = some ["pageUrl"] →
      (vendorPayload ["cpmStats"] fullPayload indexPayload sig v).lookup
          "cpmStats" = fullPayload.lookup "cpmStats" ∧
      (vendorPayload ["cpmStats"] fullPayload indexPayload sig v).lookup
          "pageUrl" = none ∧
      ∀ k, k ≠ "pageUrl" →
        (vendorPayload ["cpmStats"] fullPayload indexPayload sig v).lookup
          k = fullPayload.lookup k) := by
  refine ⟨?_, ?_, ?_⟩
  · intro g v l h hl
    have : 0 < l.length := List.length_pos.mpr hl
    simp [getExcludeFieldsForVendor, h, this]
  · intro g v h
    rcases h with h | h
    · simp [getExcludeFieldsForVendor, h]
    · simp [getExcludeFieldsForVendor, h]
  · intro full idx sig v hmode hex
    have hvp : vendorPayload ["cpmStats"] full idx sig v =
        filterPayload full ["pageUrl"] := by
      simp [vendorPayload, hmode, getExcludeFieldsForVendor, hex]
    refine ⟨?_, ?_, ?_⟩
    · rw [hvp, lookup_filterPayload]
      simp
    · rw [hvp, lookup_filterPayload]
      simp
    · intro k hk
      rw [hvp, lookup_filterPayload]
      simp [hk]

/-- Witness for C3: the override clause at a concrete vendor with
`excludeFields = ["pageUrl"]` and global `["cpmStats"]`. -/
theorem claim_C3_witness :
    ((⟨"vendorA", "https://e", "raw", some ["pageUrl"]⟩ : Vendor).excludeFields
        = some ["pageUrl"] ∧ (["pageUrl"] : List String) ≠ []) ∧
    getExcludeFieldsForVendor ["cpmStats"]
      ⟨"vendorA", "https://e", "raw", some ["pageUrl"]⟩ = ["pageUrl"] :=
  ⟨⟨rfl, by simp⟩,
    claim_C3_excludeFieldsOverride.1 ["cpmStats"]
      ⟨"vendorA", "https://e", "raw", some ["pageUrl"]⟩ ["pageUrl"] rfl
      (by simp)⟩

/-- C9: exclusion filtering is non-destructive: the filtered copy lacks
exactly the excluded keys and agrees with the original payload on every
other key, and the fan-out loop computes every destination's payload
from the one shared original pair of payloads, independently of the
exclusions applied for the other destinations. -/
theorem claim_C9_filterPayloadNonDestructive :
    (∀ (p : Payload) (ex : List String) (k : String),
      (filterPayload p ex).lookup k = if k ∈ ex then none else p.lookup k) ∧
    (∀ (vendors : List Vendor) (globalExclude : List String)
        (fullPayload indexPayload : Payload) (sig : ℚ),
      sendTelemetryToVendors vendors globalExclude fullPayload indexPayload
          sig =
        vendors.map (fun v =>
          (v.name,
            vendorPayload globalExclude fullPayload indexPayload sig v))) :=
  ⟨lookup_filterPayload, sendTelemetryToVendors_eq_map⟩

/-- C10: a vendor in `both` mode always receives `auctionSignal` bound
to the computed score — the field is set after exclusion filtering, so
no exclusion configuration (including one naming `auctionSignal`) can
remove it. -/
theorem claim_C10_bothModeKeepsSignal :
    ∀ (globalExclude : List String) (fullPayload indexPayload : Payload)
      (sig : ℚ) (v : Vendor), v.dataMode = "both" →
      (vendorPayload globalExclude fullPayload indexPayload sig v).lookup
        "auctionSignal" = some (Value.num sig) := by
  intro g full idx sig v hmode
  simp only [vendorPayload, hmode]
  norm_num
  exact lookup_setField_self _ _ _

/-- Witness for C10: a vendor in `both` mode whose own exclusion list
even names `auctionSignal`. -/
theorem claim_C10_witness :
    ((⟨"vendorB", "https://e", "both", some ["auctionSignal"]⟩ : Vendor).dataMode
        = "both") ∧
    (vendorPayload [] [("domain", Value.str "d")] [] (21/100)
        ⟨"vendorB", "https://e", "both", some ["auctionSignal"]⟩).lookup
      "auctionSignal" = some (Value.num (21/100)) :=
  ⟨rfl,
    claim_C10_bothModeKeepsSignal [] [("domain", Value.str "d")] [] (21/100)
      ⟨"vendorB", "https://e", "both", some ["auctionSignal"]⟩ rfl⟩

/-- C4: for every configuration and every completed auction, the
payload dispatched to a vendor with dataMode `index` is the index
payload, which contains neither `cpmStats` nor `bidderList`. -/
theorem claim_C4_indexPayloadPrivacy :
    ∀ (cfg : Config) (env : Env) (g : Option SiteContent) (cache : Cache)
      (args : AuctionEndArgs) (res : AuctionEndResult) (c2 : Cache),
      onAuctionEnd cfg env g cache args = (some res, c2) →
      res.indexPayload.lookup "cpmStats" = none ∧
      res.indexPayload.lookup "bidderList" = none ∧
      res.sends = cfg.vendors.map (fun v => (v.name,
        vendorPayload cfg.excludeFields res.fullPayload res.indexPayload
          res.auctionSignal v)) ∧
      ∀ v ∈ cfg.vendors, v.dataMode = "index" →
        vendorPayload cfg.excludeFields res.fullPayload res.indexPayload
          res.auctionSignal v = res.indexPayload := by
  intro cfg env g cache args res c2 h
  cases hc : cache args.auctionId with
  | none =>
    rw [onAuctionEnd, hc] at h
    simp at h
  | some auction =>
    rw [onAuctionEnd, hc] at h
    have hres := congrArg Prod.fst h
    simp only at hres
    have hres2 := Option.some.inj hres
    subst hres2
    refine ⟨?_, ?_, ?_, ?_⟩
    · cases hctx : getContentContext args g with
      | none => simp [hctx, List.lookup]
      | some ctx =>
        simp only [hctx]
        rw [lookup_setField_ne _ _ _ _ (by decide)]
        simp [List.lookup]
    · cases hctx : getContentContext args g with
      | none => simp [hctx, List.lookup]
      | some ctx =>
        simp only [hctx]
        rw [lookup_setField_ne _ _ _ _ (by decide)]
        simp [List.lookup]
    · exact sendTelemetryToVendors_eq_map _ _ _ _ _
    · intro v hv hmode
      simp [vendorPayload, hmode]

/-- Concrete configuration used to witness C4. -/
def cfgC4 : Config := ⟨[⟨"vendorI", "https://e", "index", none⟩], none, []⟩

/-- Concrete environment used to witness C4. -/
def envC4 : Env := ⟨"d.example", "/p", "ts", "ua", "9.0", 0⟩

/-- Concrete cache holding one finished auction, used to witness C4. -/
def cacheC4 : Cache :=
  fun k => if k = "A9" then some ⟨"A9", 0, 1, 2, 1, 0, [5], ["bidderA"]⟩
  else none

/-- Concrete auction-end arguments used to witness C4. -/
def argsC4 : AuctionEndArgs := ⟨"A9", some 100, [], none⟩

/-- Witness for C4: a concrete completed auction whose index payload
lacks `cpmStats`. -/
theorem claim_C4_witness :
    onAuctionEnd cfgC4 envC4 none cacheC4 argsC4 =
      (some ((onAuctionEnd cfgC4 envC4 none cacheC4 argsC4).1.getD
        ⟨[], [], 0, []⟩),
       (onAuctionEnd cfgC4 envC4 none cacheC4 argsC4).2) ∧
    ((onAuctionEnd cfgC4 envC4 none cacheC4 argsC4).1.getD
        ⟨[], [], 0, []⟩).indexPayload.lookup "cpmStats" = none :=
  ⟨rfl,
    (claim_C4_indexPayloadPrivacy cfgC4 envC4 none cacheC4 argsC4 _ _
      rfl).1⟩

/-- C5: a bid-response, no-bid or auction-end event whose auction id has
no cache record leaves the cache unchanged (and yields no result for
auction-end), and a second auction-end for the same id after a first one
is a no-op returning no result. -/
theorem claim_C5_unknownIdNoops :
    ∀ (cfg : Config) (env : Env) (g : Option SiteContent) (cache : Cache)
      (brArgs : BidResponseArgs) (nbArgs : NoBidArgs)
      (aeArgs : AuctionEndArgs),
      cache brArgs.auctionId = none → cache nbArgs.auctionId = none →
      cache aeArgs.auctionId = none →
      onBidResponse cache brArgs = cache ∧
      onNoBid cache nbArgs = cache ∧
      onAuctionEnd cfg env g cache aeArgs = (none, cache) ∧
      ∀ c0 : Cache,
        onAuctionEnd cfg env g (onAuctionEnd cfg env g c0 aeArgs).2 aeArgs =
          (none, (onAuctionEnd cfg env g c0 aeArgs).2) := by
  intro cfg env g cache brArgs nbArgs aeArgs h1 h2 h3
  refine ⟨?_, ?_, ?_, ?_⟩
  · rw [onBidResponse, h1]
  · rw [onNoBid, h2]
  · rw [onAuctionEnd, h3]
  · intro c0
    cases hc : c0 aeArgs.auctionId with
    | none =>
      have hinner : onAuctionEnd cfg env g c0 aeArgs = (none, c0) := by
        rw [onAuctionEnd, hc]
      rw [hinner]
      exact hinner
    | some auction =>
      have hsnd : (onAuctionEnd cfg env g c0 aeArgs).2 =
          fun k => if k = aeArgs.auctionId then none else c0 k := by
        rw [onAuctionEnd, hc]
      have hnone : (onAuctionEnd cfg env g c0 aeArgs).2 aeArgs.auctionId =
          none := by
        rw [hsnd]
        simp
      rw [onAuctionEnd, hnone]

/-- Witness for C5: the unknown-id no-ops at the empty cache. -/
theorem claim_C5_witness :
    ((fun _ => none : Cache) "A1" = none ∧
     (fun _ => none : Cache) "A2" = none ∧
     (fun _ => none : Cache) "A3" = none) ∧
    onBidResponse (fun _ => none) ⟨"A1", some 1⟩ = (fun _ => none) :=
  ⟨⟨rfl, rfl, rfl⟩,
    (claim_C5_unknownIdNoops cfgC4 envC4 none (fun _ => none) ⟨"A1", some 1⟩
      ⟨"A2"⟩ ⟨"A3", none, [], none⟩ rfl rfl rfl).1⟩

/-- The C6 end-to-end event sequence: auction `A1` starts at `t0` with
3 ad units; three bid-requested events contribute 3 bids each from
three distinct bidders; two bid responses with CPMs 1.00 and 2.00; one
no-bid. -/
def cacheC6 (t0 : ℤ) : Cache :=
  onNoBid (onBidResponse (onBidResponse (onBidRequested (onBidRequested
    (onBidRequested (onAuctionInit 0 (fun _ => none)
      ⟨"A1", ["au1", "au2", "au3"], some t0⟩)
      ⟨"A1", "bidderA", ["b1", "b2", "b3"]⟩)
      ⟨"A1", "bidderB", ["b4", "b5", "b6"]⟩)
      ⟨"A1", "bidderC", ["b7", "b8", "b9"]⟩)
    ⟨"A1", some 1⟩) ⟨"A1", some 2⟩) ⟨"A1"⟩

/-- Configuration used in the C6 scenario (no vendors needed). -/
def cfgC6 : Config := ⟨[], none, []⟩

/-- Environment used in the C6 scenario. -/
def envC6 : Env := ⟨"d.example", "/p", "ts", "ua", "9.0", 0⟩

/-- Auction-end arguments of the C6 scenario: end time `t0 + 850`. -/
def argsC6 (t0 : ℤ) : AuctionEndArgs := ⟨"A1", some (t0 + 850), [], none⟩

/-- The payload produced by the C6 scenario. -/
def resC6 (t0 : ℤ) : AuctionEndResult :=
  (onAuctionEnd cfgC6 envC6 none (cacheC6 t0) (argsC6 t0)).1.getD
    ⟨[], [], 0, []⟩

/-- C6: the end-to-end scenario — begin `A1` at `t0` with 3 ad units,
9 requested bids over 3 distinct bidders, responses with CPMs 1.00 and
2.00, one no-bid, finalize at `t0 + 850` — yields
`bidderRequests = 9, bidResponses = 2, noBids = 1, uniqueBidders = 3,
fillRate = 0.22 (rounded), auctionDuration = 850`, and a signal score
computed from the unrounded ratio `2/9`, `avgCpm = 1.50` and
3 unique bidders, which equals `0.21`. -/
theorem claim_C6_endToEndScenario (t0 : ℤ) :
    (onAuctionEnd cfgC6 envC6 none (cacheC6 t0) (argsC6 t0)).1 =
      some (resC6 t0) ∧
    (resC6 t0).fullPayload.lookup "bidderRequests" = some (Value.num 9) ∧
    (resC6 t0).fullPayload.lookup "bidResponses" = some (Value.num 2) ∧
    (resC6 t0).fullPayload.lookup "noBids" = some (Value.num 1) ∧
    (resC6 t0).fullPayload.lookup "uniqueBidders" = some (Value.num 3) ∧
    (resC6 t0).fullPayload.lookup "fillRate" =
      some (Value.num (22/100)) ∧
    (resC6 t0).fullPayload.lookup "auctionDuration" =
      some (Value.num 850) ∧
    (calculateCpmStats [1, 2]).avg = 3/2 ∧
    (resC6 t0).auctionSignal = calculateAuctionSignal (2/9) (3/2) 3 ∧
    calculateAuctionSignal (2/9) (3/2) 3 = 21/100 := by
  have hcache : cacheC6 t0 "A1" =
      some ⟨"A1", t0, 3, 9, 2, 1, [1, 2],
        ["bidderA", "bidderB", "bidderC"]⟩ := rfl
  have hfill : round2 ((2 : ℚ)/9) = 22/100 := by
    rw [round2_eq (2/9) 22 (by norm_num) (by norm_num)]; norm_num
  have havg32 : round2 ((3 : ℚ)/2) = 3/2 := by
    rw [round2_eq (3/2) 150 (by norm_num) (by norm_num)]; norm_num
  have hstats : (calculateCpmStats [1, 2]).avg = 3/2 := by
    norm_num [calculateCpmStats, List.insertionSort, List.orderedInsert,
      List.getD, havg32]
  have hsig : calculateAuctionSignal (2/9) (3/2) 3 = 21/100 := by
    have h : round2 (47/225) = 21/100 := by
      rw [round2_eq (47/225) 21 (by norm_num) (by norm_num)]; norm_num
    norm_num [calculateAuctionSignal, min_def, h]
  refine ⟨rfl, ?_, ?_, ?_, ?_, ?_, ?_, hstats, ?_, hsig⟩
  · simp [resC6, onAuctionEnd, argsC6, hcache, List.lookup]
  · simp [resC6, onAuctionEnd, argsC6, hcache, List.lookup]
  · simp [resC6, onAuctionEnd, argsC6, hcache, List.lookup]
  · simp [resC6, onAuctionEnd, argsC6, hcache, List.lookup, addBidder]
  · simp [resC6, onAuctionEnd, argsC6, hcache, List.lookup, hfill]
  · simp [resC6, onAuctionEnd, argsC6, hcache, List.lookup]
  · simp [resC6, onAuctionEnd, argsC6, hcache, hstats, addBidder]

/-- Counterexample to C1: the first bidder request carries a content
descriptor with neither `language` nor non-empty `keywords` (only an
empty keywords array), the event's top-level descriptor carries a
language and would yield a context — yet the resolver returns null
without consulting it. -/
theorem claim_C1_counterexample :
    getContentContext
      ⟨"a1", none, [⟨"bidderA", some ⟨none, some []⟩⟩],
        some ⟨some "en", none⟩⟩ none = none ∧
    buildContextObject ⟨some "en", none⟩ =
      some ⟨some "en", none, "ortb2"⟩ :=
  ⟨rfl, rfl⟩

/-- C1 (amended): the resolver consults the three sources in fallback
order but short-circuits at the first source that exposes any content
descriptor at all: the result is `buildContextObject` of that single
descriptor — null when it carries neither `language` nor non-empty
`keywords` — and later sources are consulted only when every earlier
source lacks a content descriptor entirely; bidder requests are
inspected in the order they appear. -/
theorem claim_C1_contentContextAmended :
    (∀ (args : AuctionEndArgs) (globalContent : Option SiteContent),
      getContentContext args globalContent =
        (((firstBidderContent args.bidderRequests).orElse
            (fun _ => args.topContent)).orElse
          (fun _ => globalContent)).bind
          (fun c => buildContextObject c)) ∧
    (∀ (br : BidderRequest) (rest : List BidderRequest),
      firstBidderContent (br :: rest) =
        (br.content).orElse (fun _ => firstBidderContent rest)) := by
  constructor
  · intro args g
    rw [getContentContext.eq_def]
    cases h : firstBidderContent args.bidderRequests with
    | some c => simp [Option.orElse]
    | none =>
      cases ht : args.topContent with
      | some c => simp [Option.orElse]
      | none =>
        cases hg : g with
        | some c => simp [Option.orElse]
        | none => simp [Option.orElse]
  · intro br rest
    cases hc : br.content with
    | some c => simp [firstBidderContent, hc, Option.orElse]
    | none => simp [firstBidderContent, hc, Option.orElse]

/-- Counterexample to C2: a vendor whose `excludeFields` contains the
unknown name `"bogus"` survives `enableAnalytics` with that list kept
verbatim, so the effective exclusion set used at send time contains a
field name outside the known vocabulary. -/
theorem claim_C2_counterexample :
    enableAnalytics
      ⟨some [⟨some "vendorA", some "https://e", none, some ["bogus"]⟩],
        none, none⟩ =
      some ⟨[⟨"vendorA", "https://e", "raw", some ["bogus"]⟩], none, []⟩ ∧
    getExcludeFieldsForVendor []
      ⟨"vendorA", "https://e", "raw", some ["bogus"]⟩ = ["bogus"] ∧
    ¬ ("bogus" ∈ PAYLOAD_FIELDS) :=
  ⟨rfl, rfl, by simp [PAYLOAD_FIELDS]⟩

/-- C2 (amended): at configuration time only the entries of the global
`excludeFields` list are validated against the known payload vocabulary
(unknown entries dropped); each vendor's own `excludeFields` list is
kept verbatim by validation, so a per-vendor effective exclusion set may
contain names outside the vocabulary. -/
theorem claim_C2_configValidationAmended :
    (∀ (opts : Options) (cfg : Config), enableAnalytics opts = some cfg →
      ∀ f ∈ cfg.excludeFields, f ∈ PAYLOAD_FIELDS) ∧
    (∀ (vin : VendorIn) (v : Vendor), validateVendor vin = some v →
      v.excludeFields = vin.excludeFields) := by
  constructor
  · intro opts cfg h f hf
    rw [enableAnalytics] at h
    cases hv : opts.vendors with
    | none => rw [hv] at h; exact absurd h (by simp)
    | some vs =>
      rw [hv] at h
      by_cases h0 : vs.length = 0
      · simp [h0] at h
      · simp only [h0, if_false] at h
        by_cases h1 : (vs.filterMap validateVendor).length = 0
        · simp [h1] at h
        · simp only [h1, if_false] at h
          have hcfg := Option.some.inj h
          rw [← hcfg] at hf
          simp only at hf
          cases he : opts.excludeFields with
          | none => rw [he] at hf; simp at hf
          | some l =>
            rw [he] at hf
            have := List.mem_filter.mp hf
            simpa using this.2
  · intro vin v h
    rw [validateVendor] at h
    cases hn : vin.name with
    | none => rw [hn] at h; exact absurd h (by simp)
    | some n =>
      rw [hn] at h
      by_cases hn0 : n = ""
      · simp [hn0] at h
      · simp only [hn0, if_false] at h
        cases he : vin.endpoint with
        | none => rw [he] at h; exact absurd h (by simp)
        | some e =>
          rw [he] at h
          by_cases he0 : e = ""
          · simp [he0] at h
          · simp only [he0, if_false] at h
            have := Option.some.inj h
            rw [← this]

/-- Witness for C2 (amended): a configuration whose global list holds a
known and an unknown name; the surviving entry is in the vocabulary. -/
theorem claim_C2_witness :
    enableAnalytics
      ⟨some [⟨some "vendorA", some "https://e", none, none⟩], none,
        some ["cpmStats", "bogus"]⟩ =
      some ⟨[⟨"vendorA", "https://e", "raw", none⟩], none, ["cpmStats"]⟩ ∧
    "cpmStats" ∈
      (⟨[⟨"vendorA", "https://e", "raw", none⟩], none,
        ["cpmStats"]⟩ : Config).excludeFields ∧
    "cpmStats" ∈ PAYLOAD_FIELDS :=
  ⟨rfl, by simp,
    claim_C2_configValidationAmended.1
      ⟨some [⟨some "vendorA", some "https://e", none, none⟩], none,
        some ["cpmStats", "bogus"]⟩
      ⟨[⟨"vendorA", "https://e", "raw", none⟩], none, ["cpmStats"]⟩ rfl
      "cpmStats" (by simp)⟩
